import Mathlib

/-!
Verification of the `ghtoken` token-resolution library (`src/ghtoken/__init__.py`).

The development shallowly embeds the five source probes and the resolution
combinator `get_ghtoken`.  Ambient process state (environment variables, the
filesystem, subprocess invocations) is threaded through explicitly as a
`World` record; every probe is a pure function from a `World` to a `Res`
outcome.  Python strings are modelled as Lean `String`s, with the string
primitives used by the source (`str.endswith` on one-character suffixes,
`s[:-1]`, `s[1:]`, `str.startswith`, `str.strip`, `str.split(":")`)
re-implemented over the underlying character lists so that everything is
kernel-computable.
-/

namespace GhToken

/-! ## Outcomes

A probe either returns a token string, raises `GHTokenNotFound` (`notFound`),
or lets some other exception escape (`hard`; in the source this happens only
for the `check=True` shell invocation in `ghtoken_from_hub_oauthtoken`, whose
`CalledProcessError`/`OSError` is not caught). -/

inductive Res where
  | found (tok : String)
  | notFound
  | hard
deriving DecidableEq, Repr

/-- Result of one `subprocess.run(..., check=True)` call: `failure` covers both
`CalledProcessError` (nonzero exit) and `OSError` (cannot start); `success`
carries the captured stdout. -/
inductive SubprocResult where
  | failure
  | success (stdout : String)
deriving DecidableEq, Repr

/-! ## String primitives (Python semantics) -/

/-- `chomp` body on the character list: `if s.endswith("\n"): s = s[:-1]`,
then `if s.endswith("\r"): s = s[:-1]`.  A one-character `endswith` is a
`getLast?` test and `s[:-1]` is `dropLast`. -/
def chompD (l : List Char) : List Char :=
  let l1 := if l.getLast? = some '\n' then l.dropLast else l
  if l1.getLast? = some '\r' then l1.dropLast else l1

/-- Embedding of the source's `chomp`: remove a trailing LF, CR LF, or CR. -/
def chomp (s : String) : String := ⟨chompD s.data⟩

/-- Characters removed by Python's `str.strip()` (ASCII whitespace). -/
def pyIsSpace (c : Char) : Bool :=
  c = ' ' || c = '\t' || c = '\n' || c = '\r' || c = '\x0b' || c = '\x0c'

/-- Python `str.strip()`: drop leading and trailing whitespace. -/
def pyStrip (s : String) : String :=
  ⟨((s.data.dropWhile pyIsSpace).reverse.dropWhile pyIsSpace).reverse⟩

/-- Python `s.startswith(p)`. -/
def pyStartsWith (s p : String) : Bool := p.data.isPrefixOf s.data

/-- Python `s[1:]`. -/
def pyDropFirst (s : String) : String := ⟨s.data.drop 1⟩

/-- Python `str.split(":")` on the character list (separator nonempty, so
`"".split(":") == [""]`). -/
def splitColonD : List Char → List (List Char)
  | [] => [[]]
  | c :: rest =>
    let r := splitColonD rest
    if c = ':' then [] :: r else (c :: r.headD []) :: r.tail

/-- Python `s.split(":")`. -/
def splitColon (s : String) : List String := (splitColonD s.data).map String.mk

/-! ## YAML documents

Values producible by `YAML(typ="safe").load` that the `hub` probe can
encounter, together with Python subscripting semantics.  Mapping keys are
restricted to hashable scalars (which is all a safe YAML load can produce for
the keys the probe looks up). -/

/-- Scalar mapping key. -/
inductive YKey where
  | null
  | bool (b : Bool)
  | int (n : Int)
  | str (s : String)

inductive Yaml where
  | null
  | bool (b : Bool)
  | int (n : Int)
  | str (s : String)
  | seq (xs : List Yaml)
  | map (kvs : List (YKey × Yaml))

/-- Python `==` on dict keys; `bool` is an `int` subclass, so
`False == 0` and `True == 1`. -/
def YKey.pyEq : YKey → YKey → Bool
  | .null, .null => true
  | .bool a, .bool b => a == b
  | .bool a, .int n => (if a then (1 : Int) else 0) == n
  | .int n, .bool b => n == (if b then (1 : Int) else 0)
  | .int a, .int b => a == b
  | .str a, .str b => a == b
  | _, _ => false

/-- Python dict lookup `d[key]`: first binding whose key compares `==`. -/
def lookupPyKey : List (YKey × Yaml) → YKey → Option Yaml
  | [], _ => none
  | (k, v) :: rest, key => if k.pyEq key then some v else lookupPyKey rest key

/-- Python sequence index normalisation: negative indices count from the end;
out of range is `IndexError`. -/
def pyListIdx (len : Nat) (n : Int) : Option Nat :=
  if 0 ≤ n then (if n < (len : Int) then some n.toNat else none)
  else (if 0 ≤ (len : Int) + n then some ((len : Int) + n).toNat else none)

/-- Python subscripting `x[k]` on a safe-YAML value, returning `none` where
Python raises `TypeError`/`KeyError`/`IndexError` (all of which the source
catches).  Lists and strings accept `int` (and `bool`) indices; dicts accept
any scalar key; everything else raises. -/
def pyGetItem : Yaml → YKey → Option Yaml
  | .map kvs, k => lookupPyKey kvs k
  | .seq xs, .int n => (pyListIdx xs.length n).bind (fun i => xs.get? i)
  | .seq xs, .bool b => xs.get? (if b then 1 else 0)
  | .str s, .int n =>
      (pyListIdx s.data.length n).bind
        (fun i => (s.data.get? i).map (fun c => Yaml.str ⟨[c]⟩))
  | .str s, .bool b =>
      (s.data.get? (if b then 1 else 0)).map (fun c => Yaml.str ⟨[c]⟩)
  | _, _ => none

/-- The source's `cfg["github.com"][0]["oauth_token"]`, with every lookup
failure (caught as `TypeError`/`AttributeError`/`LookupError`) as `none`. -/
def hubTokenLookup (cfg : Yaml) : Option Yaml :=
  (pyGetItem cfg (.str "github.com")).bind fun a =>
    (pyGetItem a (.int 0)).bind fun b =>
      pyGetItem b (.str "oauth_token")

/-! ## Ambient world -/

/-- Ambient process state read by the probes.  Subprocess calls with fixed
argument vectors are single `SubprocResult` fields; the shell invocation of a
`!`-token's remainder depends on the command string, so it is a function. -/
structure World where
  /-- `os.environ.get` / `os.getenv`. -/
  environ : String → Option String
  /-- `str(Path.home())`. -/
  home : String
  /-- `Path(...).exists()`. -/
  fileExists : String → Bool
  /-- `path.open()` + `YAML(typ="safe").load(fp)`; `.error` is any exception
  (I/O failure or parse failure), both caught by the source. -/
  readYaml : String → Except Unit Yaml
  /-- `find_dotenv(usecwd=True)` (returns `""` when nothing is found). -/
  findDotenv : String
  /-- `dotenv_values(path)` as a key-value lookup for a given path. -/
  dotenvValues : String → String → Option String
  /-- `subprocess.run(["gh", "auth", "token", "--hostname", "github.com"], ...)`. -/
  ghAuthToken : SubprocResult
  /-- `subprocess.run(["git", "config", "--get", "hub.oauthtoken"], ...)`. -/
  gitHubOauthtoken : SubprocResult
  /-- `subprocess.run(["git", "config", "--get", "--default",
  "https://api.github.com", "hub.baseurl"], ...)`. -/
  gitHubBaseurl : SubprocResult
  /-- `subprocess.run(cmd, shell=True, ...)` for a command string. -/
  shellExec : String → SubprocResult

/-! ## Probes -/

def ENVVARS : List String := ["GH_TOKEN", "GITHUB_TOKEN"]

/-- The loop `for varname in vars: value = get(varname); if value is not None
and value != "": return value`. -/
def lookupFirstNonEmpty (get : String → Option String) : List String → Option String
  | [] => none
  | v :: rest =>
    match get v with
    | some value => if value = "" then lookupFirstNonEmpty get rest else some value
    | none => lookupFirstNonEmpty get rest

/-- `if path is None: path = find_dotenv(usecwd=True)`. -/
def dotenvResolvedPath (w : World) : Option String → String
  | none => w.findDotenv
  | some p => p

/-- Embedding of `ghtoken_from_dotenv`. -/
def ghtoken_from_dotenv (w : World) (path : Option String) : Res :=
  let de_vars := w.dotenvValues (dotenvResolvedPath w path)
  match lookupFirstNonEmpty de_vars ENVVARS with
  | some v => .found v
  | none => .notFound

/-- Embedding of `ghtoken_from_environ`. -/
def ghtoken_from_environ (w : World) : Res :=
  match lookupFirstNonEmpty w.environ ENVVARS with
  | some v => .found v
  | none => .notFound

/-- Embedding of `ghtoken_from_gh`. -/
def ghtoken_from_gh (w : World) : Res :=
  match w.ghAuthToken with
  | .failure => .notFound
  | .success stdout =>
    let token := chomp stdout
    if token = "" then .notFound else .found token

/-- `Path(d, "hub")` for a directory string. -/
def joinHub (d : String) : String := d ++ "/hub"

/-- The `for d in [config_dir, *xdg_dirs.split(":")]` loop: first directory
whose `<dir>/hub` exists. -/
def firstExisting (w : World) : List String → Option String
  | [] => none
  | d :: rest => if w.fileExists (joinHub d) then some (joinHub d) else firstExisting w rest

/-- Configuration-file path resolution of `ghtoken_from_hub` (lines 257-272 of
the source): `$HUB_CONFIG` verbatim when nonempty, else the first existing
`<dir>/hub` among `config_dir :: split($XDG_CONFIG_DIRS)`. -/
def hubConfigPath (w : World) : Option String :=
  let pathstr := (w.environ "HUB_CONFIG").getD ""
  if pathstr = "" then
    let config_dir0 := (w.environ "XDG_CONFIG_HOME").getD ""
    let config_dir := if config_dir0 = "" then w.home ++ "/.config" else config_dir0
    let xdg_dirs0 := (w.environ "XDG_CONFIG_DIRS").getD ""
    let xdg_dirs := if xdg_dirs0 = "" then "/etc/xdg" else xdg_dirs0
    firstExisting w (config_dir :: splitColon xdg_dirs)
  else some pathstr

/-- Embedding of `ghtoken_from_hub`. -/
def ghtoken_from_hub (w : World) : Res :=
  match hubConfigPath w with
  | none => .notFound
  | some path =>
    match w.readYaml path with
    | .error _ => .notFound
    | .ok cfg =>
      match hubTokenLookup cfg with
      | some (.str token) => if token = "" then .notFound else .found token
      | _ => .notFound

/-- Embedding of `ghtoken_from_hub_oauthtoken`.  Note the shell invocation in
the `!`-branch is run with `check=True` outside any `try`, so its failure is
`hard`, and its stripped stdout is returned without an emptiness check. -/
def ghtoken_from_hub_oauthtoken (w : World) : Res :=
  match w.gitHubOauthtoken with
  | .failure => .notFound
  | .success out1 =>
    let token := chomp out1
    if token = "" then .notFound
    else
      match w.gitHubBaseurl with
      | .failure => .notFound
      | .success out2 =>
        if chomp out2 = "https://api.github.com" then
          if pyStartsWith token "!" then
            match w.shellExec (pyDropFirst token) with
            | .failure => .hard
            | .success out3 => .found (pyStrip out3)
          else .found token
        else .notFound

/-! ## Combinator -/

/-- The `dotenv` keyword of `get_ghtoken`: `False`, `True`, or a path. -/
inductive DotenvArg where
  | disabled
  | enabled
  | path (p : String)
deriving DecidableEq, Repr

/-- One `try: return probe() except GHTokenNotFound: pass` step: a `notFound`
falls through to the continuation, anything else returns. -/
def orNext : Res → Res → Res
  | .notFound, next => next
  | .found t, _ => .found t
  | .hard, _ => .hard

/-- Embedding of `get_ghtoken` (lines 111-140 of the source). -/
def get_ghtoken (w : World) (dv : DotenvArg)
    (environ gh hub hub_oauthtoken : Bool) : Res :=
  let s4 := if hub_oauthtoken then orNext (ghtoken_from_hub_oauthtoken w) .notFound
            else .notFound
  let s3 := if hub then orNext (ghtoken_from_hub w) s4 else s4
  let s2 := if gh then orNext (ghtoken_from_gh w) s3 else s3
  let s1 := if environ then orNext (ghtoken_from_environ w) s2 else s2
  match dv with
  | .disabled => s1
  | .enabled => orNext (ghtoken_from_dotenv w none) s1
  | .path p => orNext (ghtoken_from_dotenv w (some p)) s1

/-! ## Instrumented combinator

`get_ghtokenT` is `get_ghtoken` with each probe invocation recorded, so that
the set of probes actually consulted can be reasoned about. -/

inductive ProbeName where
  | dotenv
  | environ
  | gh
  | hub
  | hub_oauthtoken
deriving DecidableEq, Repr

/-- One combinator step with the invoked probe recorded. -/
def orNextT : Res → ProbeName → Res × List ProbeName → Res × List ProbeName
  | .notFound, p, next => (next.1, p :: next.2)
  | .found t, p, _ => (.found t, [p])
  | .hard, p, _ => (.hard, [p])

/-- `get_ghtoken` instrumented with the list of probes invoked, in order. -/
def get_ghtokenT (w : World) (dv : DotenvArg)
    (environ gh hub hub_oauthtoken : Bool) : Res × List ProbeName :=
  let s4 := if hub_oauthtoken then
              orNextT (ghtoken_from_hub_oauthtoken w) .hub_oauthtoken (.notFound, [])
            else (.notFound, [])
  let s3 := if hub then orNextT (ghtoken_from_hub w) .hub s4 else s4
  let s2 := if gh then orNextT (ghtoken_from_gh w) .gh s3 else s3
  let s1 := if environ then orNextT (ghtoken_from_environ w) .environ s2 else s2
  match dv with
  | .disabled => s1
  | .enabled => orNextT (ghtoken_from_dotenv w none) .dotenv s1
  | .path p => orNextT (ghtoken_from_dotenv w (some p)) .dotenv s1

/-! ## Specification-side definitions

These are written from the words of the specification claims, to be compared
with the embedded source functions. -/

/-- The dotenv path override carried by the `dotenv` keyword, if any. -/
def dotenvPathOf : DotenvArg → Option String
  | .disabled => none
  | .enabled => none
  | .path p => some p

/-- The outcome of a single named probe on a world. -/
def probeResOf (w : World) (dv : DotenvArg) : ProbeName → Res
  | .dotenv => ghtoken_from_dotenv w (dotenvPathOf dv)
  | .environ => ghtoken_from_environ w
  | .gh => ghtoken_from_gh w
  | .hub => ghtoken_from_hub w
  | .hub_oauthtoken => ghtoken_from_hub_oauthtoken w

/-- The enabled probes, in the fixed order dotenv, environ, gh, hub,
hub_oauthtoken (the dotenv probe is enabled whenever its argument is not
`False`). -/
def enabledProbes (dv : DotenvArg) (environ gh hub hub_oauthtoken : Bool) :
    List ProbeName :=
  (if dv ≠ .disabled then [.dotenv] else []) ++
  (if environ then [.environ] else []) ++
  (if gh then [.gh] else []) ++
  (if hub then [.hub] else []) ++
  (if hub_oauthtoken then [.hub_oauthtoken] else [])

/-- First-match-wins resolution as the claims describe it: the first outcome
that is not `notFound` is returned; if every outcome is `notFound` (or the
list is empty), the result is `notFound`. -/
def resolveSpec : List Res → Res
  | [] => .notFound
  | .notFound :: rest => resolveSpec rest
  | .found t :: _ => .found t
  | .hard :: _ => .hard

/-- The probes a first-match-wins resolution consults, per the claims: the
enabled probes up to and including the first whose outcome is not
`notFound`. -/
def consultedSpec (w : World) (dv : DotenvArg) : List ProbeName → List ProbeName
  | [] => []
  | p :: rest =>
    match probeResOf w dv p with
    | .notFound => p :: consultedSpec w dv rest
    | _ => [p]

/-- The combinator as a chain over a probe list (proof intermediary between
`get_ghtokenT` and the spec-side functions). -/
def runChainT (w : World) (dv : DotenvArg) : List ProbeName → Res × List ProbeName
  | [] => (.notFound, [])
  | p :: rest => orNextT (probeResOf w dv p) p (runChainT w dv rest)

/-- Claim C8's trimming contract, stated from the specification's words:
remove at most one trailing line terminator, where a terminator is a CR
immediately followed by LF, a lone LF, or a lone CR. -/
def chompSpecD (l : List Char) : List Char :=
  if l.getLast? = some '\n' ∧ l.dropLast.getLast? = some '\r' then l.dropLast.dropLast
  else if l.getLast? = some '\n' then l.dropLast
  else if l.getLast? = some '\r' then l.dropLast
  else l

/-- String-level wrapper of `chompSpecD`. -/
def chompSpec (s : String) : String := ⟨chompSpecD s.data⟩

/-- The final step of `ghtoken_from_hub` factored out: `isinstance(token, str)
and token != ""` on the looked-up value. -/
def tokenOfLookup : Option Yaml → Res
  | some (.str token) => if token = "" then .notFound else .found token
  | _ => .notFound

/-- Collapse a lookup result so that an empty-string value and an absent value
coincide (used to state claim C5). -/
def normalizeVal : Option String → Option String
  | some s => if s = "" then none else some s
  | none => none

/-- Two-key precedence as claim C5 states it: the first key's (normalized)
value wins regardless of the second; `notFound` exactly when neither key has a
nonempty value. -/
def resultFromPair : Option String → Option String → Res
  | some s, _ => .found s
  | none, some s => .found s
  | none, none => .notFound

/-- Claim C3's path-resolution precedence, stated from the claim's words:
`$HUB_CONFIG` (nonempty) wins over `$XDG_CONFIG_HOME/hub` (when the variable
is nonempty and the file exists), which wins over the first existing
`<dir>/hub` for the colon-split `$XDG_CONFIG_DIRS` entries (default
`/etc/xdg`), which wins over `~/.config/hub`. -/
def hubConfigPathClaim (w : World) : Option String :=
  let hubcfg := (w.environ "HUB_CONFIG").getD ""
  if hubcfg ≠ "" then some hubcfg
  else
    let xdgHome := (w.environ "XDG_CONFIG_HOME").getD ""
    if xdgHome ≠ "" ∧ w.fileExists (joinHub xdgHome) then some (joinHub xdgHome)
    else
      let xdg_dirs0 := (w.environ "XDG_CONFIG_DIRS").getD ""
      let xdg_dirs := if xdg_dirs0 = "" then "/etc/xdg" else xdg_dirs0
      match firstExisting w (splitColon xdg_dirs) with
      | some p => some p
      | none =>
        let ph := joinHub (w.home ++ "/.config")
        if w.fileExists ph then some ph else none

/-- The amended path-resolution precedence (claim C3 corrected to match the
source): `$HUB_CONFIG` (nonempty) is used verbatim; otherwise the primary
directory is `$XDG_CONFIG_HOME` when nonempty and `~/.config` when not, and
its `<dir>/hub` is checked before the `$XDG_CONFIG_DIRS` entries (default
`/etc/xdg`); the first existing `<dir>/hub` wins. -/
def hubConfigPathAmended (w : World) : Option String :=
  let hubcfg := (w.environ "HUB_CONFIG").getD ""
  if hubcfg ≠ "" then some hubcfg
  else
    let xdgHome := (w.environ "XDG_CONFIG_HOME").getD ""
    let primary := if xdgHome = "" then w.home ++ "/.config" else xdgHome
    if w.fileExists (joinHub primary) then some (joinHub primary)
    else
      let xdg_dirs0 := (w.environ "XDG_CONFIG_DIRS").getD ""
      let xdg_dirs := if xdg_dirs0 = "" then "/etc/xdg" else xdg_dirs0
      firstExisting w (splitColon xdg_dirs)

/-! ## Concrete worlds for witnesses and counterexamples -/

/-- A world in which every source is empty: no environment variables, no
files, every subprocess fails. -/
def w0 : World where
  environ := fun _ => none
  home := "/home/user"
  fileExists := fun _ => false
  readYaml := fun _ => .error ()
  findDotenv := ""
  dotenvValues := fun _ _ => none
  ghAuthToken := .failure
  gitHubOauthtoken := .failure
  gitHubBaseurl := .failure
  shellExec := fun _ => .failure

/-- `hub.oauthtoken` is a `!`-command whose shell output is a lone newline
(mirrors `test_hub_oauthtoken_shell_token` with stdout `"\n"`). -/
def wShellEmpty : World :=
  { w0 with
    gitHubOauthtoken := .success "!foo --bar baz\n"
    gitHubBaseurl := .success "https://api.github.com\n"
    shellExec := fun c => if c = "foo --bar baz" then .success "\n" else .failure }

/-- `hub.oauthtoken` is a `!`-command whose shell execution fails (mirrors
`test_hub_oauthtoken_shell_error`). -/
def wShellFail : World :=
  { w0 with
    gitHubOauthtoken := .success "!foo --bar baz\n"
    gitHubBaseurl := .success "https://api.github.com\n"
    shellExec := fun _ => .failure }

/-- A plain `hub.oauthtoken` value with the default `hub.baseurl`. -/
def wPlainToken : World :=
  { w0 with
    gitHubOauthtoken := .success "my_token\n"
    gitHubBaseurl := .success "https://api.github.com\n" }

/-- The canonical hub configuration document
`github.com:\n- oauth_token: my_token\n`. -/
def yamlMyToken : Yaml :=
  .map [(.str "github.com", .seq [.map [(.str "oauth_token", .str "my_token")]])]

/-- `$XDG_CONFIG_HOME` unset while both `~/.config/hub` and `/etc/xdg/hub`
exist, with distinct tokens (mirrors `test_hub_xdg_config_dirs_default_exists`). -/
def wHubBoth : World :=
  { w0 with
    environ := fun k => if k = "XDG_CONFIG_DIRS" then some "/etc/xdg" else none
    fileExists := fun p => p = "/home/user/.config/hub" || p = "/etc/xdg/hub"
    readYaml := fun p =>
      if p = "/home/user/.config/hub" then
        .ok (.map [(.str "github.com",
                    .seq [.map [(.str "oauth_token", .str "default_token")]])])
      else if p = "/etc/xdg/hub" then
        .ok (.map [(.str "github.com",
                    .seq [.map [(.str "oauth_token", .str "xdg_token")]])])
      else .error () }

/-- A world whose hub configuration file is found at `~/.config/hub` and
parses to `yamlMyToken`. -/
def wHubToken : World :=
  { w0 with
    fileExists := fun p => p = "/home/user/.config/hub"
    readYaml := fun p =>
      if p = "/home/user/.config/hub" then .ok yamlMyToken else .error () }

/-- Only `GH_TOKEN` is set in the process environment. -/
def wEnvA : World :=
  { w0 with environ := fun k => if k = "GH_TOKEN" then some "env_token" else none }

/-- `GH_TOKEN` as in `wEnvA`, plus an unrelated variable. -/
def wEnvB : World :=
  { w0 with environ := fun k =>
      if k = "GH_TOKEN" then some "env_token"
      else if k = "UNRELATED" then some "junk" else none }

/-- `$HUB_CONFIG` set to a file that does not exist (nothing is readable). -/
def wHubCfgOnly : World :=
  { w0 with environ := fun k => if k = "HUB_CONFIG" then some "/hub.yaml" else none }

/-! ## Helper lemmas -/

theorem chompD_eq_chompSpecD (l : List Char) : chompD l = chompSpecD l := by
  unfold chompD chompSpecD
  by_cases h1 : l.getLast? = some '\n'
  · by_cases h2 : l.dropLast.getLast? = some '\r' <;> simp [h1, h2]
  · by_cases h3 : l.getLast? = some '\r' <;> simp [h1, h3]

theorem lookupFirstNonEmpty_ne_empty (get : String → Option String)
    (l : List String) (v : String) (h : lookupFirstNonEmpty get l = some v) :
    v ≠ "" := by
  induction l with
  | nil => simp [lookupFirstNonEmpty] at h
  | cons x rest ih =>
    rw [lookupFirstNonEmpty] at h
    cases hx : get x with
    | none => simp only [hx] at h; exact ih h
    | some value =>
      simp only [hx] at h
      by_cases hv : value = ""
      · rw [if_pos hv] at h; exact ih h
      · rw [if_neg hv] at h
        cases h
        exact hv

theorem lookup_two_eq (get : String → Option String) :
    (match lookupFirstNonEmpty get ENVVARS with
     | some v => Res.found v
     | none => Res.notFound) =
    resultFromPair (normalizeVal (get "GH_TOKEN")) (normalizeVal (get "GITHUB_TOKEN")) := by
  rcases h1 : get "GH_TOKEN" with _ | s1 <;> rcases h2 : get "GITHUB_TOKEN" with _ | s2 <;>
    simp only [lookupFirstNonEmpty, ENVVARS, h1, h2, normalizeVal, resultFromPair] <;>
    split_ifs <;> simp [resultFromPair]

theorem orNextT_fst (r : Res) (p : ProbeName) (n : Res × List ProbeName) :
    (orNextT r p n).1 = orNext r n.1 := by cases r <;> rfl

theorem resolveSpec_cons (r : Res) (rest : List Res) :
    resolveSpec (r :: rest) = orNext r (resolveSpec rest) := by cases r <;> rfl

theorem runChainT_fst (w : World) (dv : DotenvArg) (l : List ProbeName) :
    (runChainT w dv l).1 = resolveSpec (l.map (probeResOf w dv)) := by
  induction l with
  | nil => rfl
  | cons p rest ih => simp [runChainT, orNextT_fst, resolveSpec_cons, ih]

theorem runChainT_snd (w : World) (dv : DotenvArg) (l : List ProbeName) :
    (runChainT w dv l).2 = consultedSpec w dv l := by
  induction l with
  | nil => rfl
  | cons p rest ih =>
    rw [runChainT, consultedSpec]
    cases probeResOf w dv p <;> simp [orNextT, ih]

theorem get_ghtokenT_eq_runChainT (w : World) (dv : DotenvArg) (e g h ho : Bool) :
    get_ghtokenT w dv e g h ho = runChainT w dv (enabledProbes dv e g h ho) := by
  cases dv <;> cases e <;> cases g <;> cases h <;> cases ho <;>
    simp [get_ghtokenT, runChainT, enabledProbes, probeResOf, dotenvPathOf]

theorem get_ghtoken_eq_fst (w : World) (dv : DotenvArg) (e g h ho : Bool) :
    get_ghtoken w dv e g h ho = (get_ghtokenT w dv e g h ho).1 := by
  cases dv <;> cases e <;> cases g <;> cases h <;> cases ho <;>
    simp [get_ghtoken, get_ghtokenT, orNextT_fst]

theorem get_ghtoken_eq_resolveSpec (w : World) (dv : DotenvArg) (e g h ho : Bool) :
    get_ghtoken w dv e g h ho =
      resolveSpec ((enabledProbes dv e g h ho).map (probeResOf w dv)) := by
  rw [get_ghtoken_eq_fst, get_ghtokenT_eq_runChainT, runChainT_fst]

theorem ghtoken_from_dotenv_cases (w : World) (p : Option String) :
    ghtoken_from_dotenv w p = .notFound ∨
      ∃ s, ghtoken_from_dotenv w p = .found s ∧ s ≠ "" := by
  cases h : lookupFirstNonEmpty (w.dotenvValues (dotenvResolvedPath w p)) ENVVARS with
  | none => left; simp [ghtoken_from_dotenv, h]
  | some v =>
    right
    exact ⟨v, by simp [ghtoken_from_dotenv, h], lookupFirstNonEmpty_ne_empty _ _ _ h⟩

theorem ghtoken_from_environ_cases (w : World) :
    ghtoken_from_environ w = .notFound ∨
      ∃ s, ghtoken_from_environ w = .found s ∧ s ≠ "" := by
  cases h : lookupFirstNonEmpty w.environ ENVVARS with
  | none => left; simp [ghtoken_from_environ, h]
  | some v =>
    right
    exact ⟨v, by simp [ghtoken_from_environ, h], lookupFirstNonEmpty_ne_empty _ _ _ h⟩

theorem ghtoken_from_gh_cases (w : World) :
    ghtoken_from_gh w = .notFound ∨
      ∃ s, ghtoken_from_gh w = .found s ∧ s ≠ "" := by
  unfold ghtoken_from_gh
  cases w.ghAuthToken with
  | failure => left; rfl
  | success out =>
    by_cases h : chomp out = ""
    · left; simp [h]
    · right; exact ⟨chomp out, by simp [h], h⟩

theorem ghtoken_from_hub_cases (w : World) :
    ghtoken_from_hub w = .notFound ∨
      ∃ s, ghtoken_from_hub w = .found s ∧ s ≠ "" := by
  unfold ghtoken_from_hub
  split
  · exact Or.inl rfl
  · split
    · exact Or.inl rfl
    · split
      · split_ifs with h
        · exact Or.inl rfl
        · exact Or.inr ⟨_, rfl, h⟩
      · exact Or.inl rfl

theorem ghtoken_from_hub_oauthtoken_found_empty (w : World)
    (h : ghtoken_from_hub_oauthtoken w = .found "") :
    ∃ o b out, w.gitHubOauthtoken = .success o ∧ chomp o ≠ "" ∧
      pyStartsWith (chomp o) "!" = true ∧
      w.gitHubBaseurl = .success b ∧ chomp b = "https://api.github.com" ∧
      w.shellExec (pyDropFirst (chomp o)) = .success out ∧ pyStrip out = "" := by
  unfold ghtoken_from_hub_oauthtoken at h
  cases ho : w.gitHubOauthtoken with
  | failure => rw [ho] at h; cases h
  | success o =>
    rw [ho] at h
    simp only [] at h
    by_cases ht : chomp o = ""
    · rw [if_pos ht] at h; cases h
    · rw [if_neg ht] at h
      cases hb : w.gitHubBaseurl with
      | failure => rw [hb] at h; cases h
      | success b =>
        rw [hb] at h
        simp only [] at h
        by_cases hurl : chomp b = "https://api.github.com"
        · rw [if_pos hurl] at h
          by_cases hbang : pyStartsWith (chomp o) "!" = true
          · rw [if_pos hbang] at h
            cases hsh : w.shellExec (pyDropFirst (chomp o)) with
            | failure => rw [hsh] at h; cases h
            | success out =>
              rw [hsh] at h
              injection h with h'
              exact ⟨o, b, out, rfl, ht, hbang, rfl, hurl, hsh, h'⟩
          · rw [if_neg hbang] at h
            injection h with h'
            exact absurd h' ht
        · rw [if_neg hurl] at h; cases h

theorem ghtoken_from_dotenv_ne_found_empty (w : World) (p : Option String) :
    ghtoken_from_dotenv w p ≠ .found "" := by
  rcases ghtoken_from_dotenv_cases w p with h | ⟨s, hs, hne⟩
  · simp [h]
  · rw [hs]; simpa using hne

theorem ghtoken_from_environ_ne_found_empty (w : World) :
    ghtoken_from_environ w ≠ .found "" := by
  rcases ghtoken_from_environ_cases w with h | ⟨s, hs, hne⟩
  · simp [h]
  · rw [hs]; simpa using hne

theorem ghtoken_from_gh_ne_found_empty (w : World) :
    ghtoken_from_gh w ≠ .found "" := by
  rcases ghtoken_from_gh_cases w with h | ⟨s, hs, hne⟩
  · simp [h]
  · rw [hs]; simpa using hne

theorem ghtoken_from_hub_ne_found_empty (w : World) :
    ghtoken_from_hub w ≠ .found "" := by
  rcases ghtoken_from_hub_cases w with h | ⟨s, hs, hne⟩
  · simp [h]
  · rw [hs]; simpa using hne

theorem resolveSpec_found_mem (l : List Res) (t : String)
    (h : resolveSpec l = .found t) : Res.found t ∈ l := by
  induction l with
  | nil => cases h
  | cons r rest ih =>
    cases r with
    | notFound => exact List.mem_cons_of_mem _ (ih h)
    | found s => rw [resolveSpec] at h; cases h; exact List.mem_cons_self _ _
    | hard => cases h

theorem match_eq_tokenOfLookup (ol : Option Yaml) :
    (match ol with
     | some (.str token) => if token = "" then Res.notFound else .found token
     | _ => .notFound) = tokenOfLookup ol := by
  cases ol with
  | none => rfl
  | some y => cases y <;> rfl

theorem tokenOfLookup_found (ol : Option Yaml) (s : String) :
    tokenOfLookup ol = .found s ↔ (ol = some (.str s) ∧ s ≠ "") := by
  cases ol with
  | none => simp [tokenOfLookup]
  | some y =>
    cases y with
    | str token =>
      by_cases he : token = ""
      · simp only [tokenOfLookup, if_pos he]
        constructor
        · intro hc; exact absurd hc (by simp)
        · rintro ⟨hts, hne⟩
          injection hts with ha
          injection ha with hb
          exact absurd (hb ▸ he) hne
      · simp only [tokenOfLookup, if_neg he]
        constructor
        · intro hfound
          injection hfound with ha
          subst ha
          exact ⟨rfl, he⟩
        · rintro ⟨hts, -⟩
          injection hts with ha
          injection ha with hb
          rw [hb]
    | null => simp [tokenOfLookup]
    | bool b => simp [tokenOfLookup]
    | int n => simp [tokenOfLookup]
    | seq xs => simp [tokenOfLookup]
    | map kvs => simp [tokenOfLookup]

theorem tokenOfLookup_notFound (ol : Option Yaml)
    (hno : ¬ ∃ s : String, ol = some (.str s) ∧ s ≠ "") :
    tokenOfLookup ol = .notFound := by
  cases ol with
  | none => rfl
  | some y =>
    cases y with
    | str token =>
      by_cases he : token = ""
      · simp [tokenOfLookup, he]
      · exact absurd ⟨token, rfl, he⟩ hno
    | null => rfl
    | bool b => rfl
    | int n => rfl
    | seq xs => rfl
    | map kvs => rfl

/-! ## Claim theorems -/

/-- C1: for every combination of the five enable controls, `get_ghtoken`
consults the enabled probes in the fixed order dotenv, environ, gh, hub,
hub_oauthtoken and returns the result of the first probe that succeeds; a
not-found outcome proceeds to the next enabled probe, and when every enabled
probe signals not-found — in particular when all five are disabled — the
result is `GHTokenNotFound`. -/
theorem get_ghtoken_first_match_wins (w : World) (dv : DotenvArg)
    (e g h ho : Bool) :
    get_ghtoken w dv e g h ho =
      resolveSpec ((enabledProbes dv e g h ho).map (probeResOf w dv)) ∧
    get_ghtoken w .disabled false false false false = .notFound :=
  ⟨get_ghtoken_eq_resolveSpec w dv e g h ho, rfl⟩

/-- C2, counterexample: with `hub.oauthtoken` set to `!foo --bar baz`, the
default `hub.baseurl`, and the shell command printing a lone newline, both
`ghtoken_from_hub_oauthtoken` and `get_ghtoken` return the empty string as a
token instead of raising `GHTokenNotFound` (the behavior the repository's own
`test_hub_oauthtoken_shell_token` case asserts). -/
theorem shell_branch_returns_empty_token :
    ghtoken_from_hub_oauthtoken wShellEmpty = .found "" ∧
    get_ghtoken wShellEmpty .disabled false false false true = .found "" := by decide

/-- C2, amended: the dotenv, environ, gh, and hub probes never return the
empty string, and `ghtoken_from_hub_oauthtoken` can return it only through
the `!`-branch — when the `hub.oauthtoken` value starts with `!` and the
configured shell command's whitespace-stripped stdout is empty; any empty
token out of `get_ghtoken` comes from that same branch. -/
theorem empty_token_only_from_shell_branch (w : World) (p : Option String) :
    ghtoken_from_dotenv w p ≠ .found "" ∧
    ghtoken_from_environ w ≠ .found "" ∧
    ghtoken_from_gh w ≠ .found "" ∧
    ghtoken_from_hub w ≠ .found "" ∧
    (ghtoken_from_hub_oauthtoken w = .found "" →
      ∃ o b out, w.gitHubOauthtoken = .success o ∧ chomp o ≠ "" ∧
        pyStartsWith (chomp o) "!" = true ∧
        w.gitHubBaseurl = .success b ∧ chomp b = "https://api.github.com" ∧
        w.shellExec (pyDropFirst (chomp o)) = .success out ∧ pyStrip out = "") ∧
    (∀ dv e g h ho, get_ghtoken w dv e g h ho = .found "" →
      ghtoken_from_hub_oauthtoken w = .found "") := by
  refine ⟨ghtoken_from_dotenv_ne_found_empty w p,
    ghtoken_from_environ_ne_found_empty w,
    ghtoken_from_gh_ne_found_empty w,
    ghtoken_from_hub_ne_found_empty w,
    ghtoken_from_hub_oauthtoken_found_empty w, ?_⟩
  intro dv e g h ho hfound
  rw [get_ghtoken_eq_resolveSpec] at hfound
  have hmem := resolveSpec_found_mem _ _ hfound
  rw [List.mem_map] at hmem
  obtain ⟨pn, _, hres⟩ := hmem
  cases pn with
  | dotenv => exact absurd hres (ghtoken_from_dotenv_ne_found_empty w _)
  | environ => exact absurd hres (ghtoken_from_environ_ne_found_empty w)
  | gh => exact absurd hres (ghtoken_from_gh_ne_found_empty w)
  | hub => exact absurd hres (ghtoken_from_hub_ne_found_empty w)
  | hub_oauthtoken => exact hres

/-- C2, witness for the amended claim: a probe with empty sources is not an
empty-token success, and the world of the counterexample satisfies the
`!`-branch characterization. -/
theorem empty_token_only_from_shell_branch_witness :
    ghtoken_from_environ w0 ≠ .found "" ∧
    (∃ o b out, wShellEmpty.gitHubOauthtoken = .success o ∧ chomp o ≠ "" ∧
      pyStartsWith (chomp o) "!" = true ∧
      wShellEmpty.gitHubBaseurl = .success b ∧
      chomp b = "https://api.github.com" ∧
      wShellEmpty.shellExec (pyDropFirst (chomp o)) = .success out ∧
      pyStrip out = "") :=
  ⟨(empty_token_only_from_shell_branch w0 none).2.1,
   (empty_token_only_from_shell_branch wShellEmpty none).2.2.2.2.1 (by decide)⟩

/-- C3, counterexample: with `$HUB_CONFIG` and `$XDG_CONFIG_HOME` unset,
`$XDG_CONFIG_DIRS` set to `/etc/xdg`, and both `~/.config/hub` and
`/etc/xdg/hub` existing, the probe reads `~/.config/hub` (yielding
`default_token`), whereas the claim's precedence chain — `$XDG_CONFIG_DIRS`
entries winning over `~/.config/hub` — would pick `/etc/xdg/hub`. -/
theorem hub_config_home_beats_xdg_dirs :
    hubConfigPath wHubBoth = some "/home/user/.config/hub" ∧
    hubConfigPathClaim wHubBoth = some "/etc/xdg/hub" ∧
    ghtoken_from_hub wHubBoth = .found "default_token" ∧
    ("/home/user/.config/hub" : String) ≠ "/etc/xdg/hub" := by decide

/-- C3, amended: `$HUB_CONFIG` (nonempty) is used verbatim and wins; otherwise
the primary directory is `$XDG_CONFIG_HOME` when nonempty, else `~/.config`,
and its `hub` file is checked before the colon-split `$XDG_CONFIG_DIRS`
entries (default `/etc/xdg`); the first existing `<dir>/hub` wins.  When
`$HUB_CONFIG` is set to a nonempty string but names an unreadable file, the
probe raises `GHTokenNotFound` without falling back to the other locations. -/
theorem hub_config_path_precedence_amended (w : World) :
    hubConfigPath w = hubConfigPathAmended w ∧
    (∀ pstr, w.environ "HUB_CONFIG" = some pstr → pstr ≠ "" →
      (hubConfigPath w = some pstr ∧
       (∀ e, w.readYaml pstr = .error e → ghtoken_from_hub w = .notFound))) := by
  constructor
  · unfold hubConfigPath hubConfigPathAmended
    by_cases h1 : (w.environ "HUB_CONFIG").getD "" = ""
    · rw [if_pos h1, if_neg (not_not_intro h1)]
      by_cases h2 : (w.environ "XDG_CONFIG_HOME").getD "" = "" <;>
        simp [h2, firstExisting]
    · rw [if_neg h1, if_pos h1]
  · intro pstr hset hne
    have hpath : hubConfigPath w = some pstr := by
      unfold hubConfigPath
      rw [hset]
      simp [hne]
    refine ⟨hpath, fun e herr => ?_⟩
    unfold ghtoken_from_hub
    rw [hpath]
    simp [herr]

/-- C3, witness for the amended claim: with `$HUB_CONFIG` naming a file that
does not exist, the resolved path is the `$HUB_CONFIG` value itself and the
probe fails as not-found. -/
theorem hub_config_path_precedence_amended_witness :
    hubConfigPath wHubCfgOnly = some "/hub.yaml" ∧
    ghtoken_from_hub wHubCfgOnly = .notFound :=
  ⟨((hub_config_path_precedence_amended wHubCfgOnly).2 "/hub.yaml" rfl
      (by decide)).1,
   ((hub_config_path_precedence_amended wHubCfgOnly).2 "/hub.yaml" rfl
      (by decide)).2 () rfl⟩

/-- C4: when the `hub.oauthtoken` value starts with `!` and the shell
execution of its remainder fails, `ghtoken_from_hub_oauthtoken` does not
convert the failure into `GHTokenNotFound` but lets it escape (`hard`), and
`get_ghtoken` — whose enabled earlier probes all signalled not-found —
propagates it instead of raising `GHTokenNotFound`; the other four probes can
never produce such an uncaught failure. -/
theorem shell_failure_propagates_hard (w : World) (o b : String)
    (h1 : w.gitHubOauthtoken = .success o) (h2 : chomp o ≠ "")
    (h3 : pyStartsWith (chomp o) "!" = true)
    (h4 : w.gitHubBaseurl = .success b)
    (h5 : chomp b = "https://api.github.com")
    (h6 : w.shellExec (pyDropFirst (chomp o)) = .failure) :
    ghtoken_from_hub_oauthtoken w = .hard ∧
    (∀ dv e g h,
      (dv ≠ .disabled → ghtoken_from_dotenv w (dotenvPathOf dv) = .notFound) →
      (e = true → ghtoken_from_environ w = .notFound) →
      (g = true → ghtoken_from_gh w = .notFound) →
      (h = true → ghtoken_from_hub w = .notFound) →
      get_ghtoken w dv e g h true = .hard) ∧
    (∀ w' p', ghtoken_from_dotenv w' p' ≠ .hard) ∧
    (∀ w', ghtoken_from_environ w' ≠ .hard) ∧
    (∀ w', ghtoken_from_gh w' ≠ .hard) ∧
    (∀ w', ghtoken_from_hub w' ≠ .hard) := by
  have hp : ghtoken_from_hub_oauthtoken w = .hard := by
    unfold ghtoken_from_hub_oauthtoken
    rw [h1]
    simp [h2, h4, h5, h3, h6]
  refine ⟨hp, ?_, ?_, ?_, ?_, ?_⟩
  · intro dv e g h hd he hg hh
    cases dv with
    | disabled =>
      cases e <;> cases g <;> cases h <;>
        simp_all [get_ghtoken, orNext, dotenvPathOf]
    | enabled =>
      have := hd (by simp)
      cases e <;> cases g <;> cases h <;>
        simp_all [get_ghtoken, orNext, dotenvPathOf]
    | path p =>
      have := hd (by simp)
      cases e <;> cases g <;> cases h <;>
        simp_all [get_ghtoken, orNext, dotenvPathOf]
  · intro w' p'
    rcases ghtoken_from_dotenv_cases w' p' with h | ⟨s, hs, _⟩
    · simp [h]
    · simp [hs]
  · intro w'
    rcases ghtoken_from_environ_cases w' with h | ⟨s, hs, _⟩
    · simp [h]
    · simp [hs]
  · intro w'
    rcases ghtoken_from_gh_cases w' with h | ⟨s, hs, _⟩
    · simp [h]
    · simp [hs]
  · intro w'
    rcases ghtoken_from_hub_cases w' with h | ⟨s, hs, _⟩
    · simp [h]
    · simp [hs]

/-- C4, witness: in `wShellFail` the shell command fails, the probe outcome
is the uncaught failure, and `get_ghtoken` with only `hub_oauthtoken` enabled
propagates it. -/
theorem shell_failure_propagates_hard_witness :
    ghtoken_from_hub_oauthtoken wShellFail = .hard ∧
    get_ghtoken wShellFail .disabled false false false true = .hard :=
  ⟨(shell_failure_propagates_hard wShellFail "!foo --bar baz\n"
      "https://api.github.com\n" rfl (by decide) (by decide) rfl (by decide)
      rfl).1,
   (shell_failure_propagates_hard wShellFail "!foo --bar baz\n"
      "https://api.github.com\n" rfl (by decide) (by decide) rfl (by decide)
      rfl).2.1 .disabled false false false
      (fun hc => absurd rfl hc) (fun hc => by cases hc) (fun hc => by cases hc)
      (fun hc => by cases hc)⟩

/-- C5: in both `ghtoken_from_dotenv` and `ghtoken_from_environ`, the outcome
is a function of the normalized values of the two candidate keys alone — the
`GH_TOKEN` value wins whenever nonempty regardless of `GITHUB_TOKEN`, an
unset key and a key set to the empty string behave identically, and the
outcome is `GHTokenNotFound` exactly when neither key has a nonempty value. -/
theorem two_key_precedence (w : World) (p : Option String) :
    ghtoken_from_dotenv w p =
      resultFromPair
        (normalizeVal (w.dotenvValues (dotenvResolvedPath w p) "GH_TOKEN"))
        (normalizeVal (w.dotenvValues (dotenvResolvedPath w p) "GITHUB_TOKEN")) ∧
    ghtoken_from_environ w =
      resultFromPair (normalizeVal (w.environ "GH_TOKEN"))
        (normalizeVal (w.environ "GITHUB_TOKEN")) :=
  ⟨lookup_two_eq (w.dotenvValues (dotenvResolvedPath w p)),
   lookup_two_eq w.environ⟩

/-- C6: given a nonempty chomped `hub.oauthtoken` value, a trimmed
`hub.baseurl` differing from the exact string `https://api.github.com` yields
`GHTokenNotFound`; when the baseurl matches, a token starting with `!` makes
the probe return the shell command's whitespace-stripped stdout, and a token
not starting with `!` is returned verbatim after only the trailing-newline
trim. -/
theorem hub_oauthtoken_baseurl_and_shell (w : World) (o : String)
    (h1 : w.gitHubOauthtoken = .success o) (h2 : chomp o ≠ "") :
    (∀ b, w.gitHubBaseurl = .success b → chomp b ≠ "https://api.github.com" →
      ghtoken_from_hub_oauthtoken w = .notFound) ∧
    (∀ b out, w.gitHubBaseurl = .success b →
      chomp b = "https://api.github.com" →
      pyStartsWith (chomp o) "!" = true →
      w.shellExec (pyDropFirst (chomp o)) = .success out →
      ghtoken_from_hub_oauthtoken w = .found (pyStrip out)) ∧
    (∀ b, w.gitHubBaseurl = .success b →
      chomp b = "https://api.github.com" →
      pyStartsWith (chomp o) "!" = false →
      ghtoken_from_hub_oauthtoken w = .found (chomp o)) := by
  refine ⟨?_, ?_, ?_⟩
  · intro b hb hurl
    unfold ghtoken_from_hub_oauthtoken
    rw [h1]
    simp [h2, hb, hurl]
  · intro b out hb hurl hbang hsh
    unfold ghtoken_from_hub_oauthtoken
    rw [h1]
    simp [h2, hb, hurl, hbang, hsh]
  · intro b hb hurl hbang
    unfold ghtoken_from_hub_oauthtoken
    rw [h1]
    simp [h2, hb, hurl, hbang]

/-- C6, witness: a plain token with the default baseurl is returned after the
newline trim, and a `!`-token's shell output is returned stripped. -/
theorem hub_oauthtoken_baseurl_and_shell_witness :
    ghtoken_from_hub_oauthtoken wPlainToken = .found (chomp "my_token\n") ∧
    ghtoken_from_hub_oauthtoken wShellEmpty = .found (pyStrip "\n") :=
  ⟨(hub_oauthtoken_baseurl_and_shell wPlainToken "my_token\n" rfl
      (by decide)).2.2 "https://api.github.com\n" rfl (by decide) (by decide),
   (hub_oauthtoken_baseurl_and_shell wShellEmpty "!foo --bar baz\n" rfl
      (by decide)).2.1 "https://api.github.com\n" "\n" rfl (by decide)
      (by decide) (by decide)⟩

/-- C7: once the configuration file is resolved and parsed, the hub probe
returns `s` exactly when the value at `["github.com"][0]["oauth_token"]` is
the nonempty string `s`; every other parsed document, a parse failure, and an
I/O failure yield `GHTokenNotFound`, and no other error can escape. -/
theorem hub_token_extraction (w : World) (p : String)
    (hp : hubConfigPath w = some p) :
    (∀ cfg, w.readYaml p = .ok cfg →
      ((∀ s : String, ghtoken_from_hub w = .found s ↔
          (hubTokenLookup cfg = some (.str s) ∧ s ≠ "")) ∧
       ((¬ ∃ s : String, hubTokenLookup cfg = some (.str s) ∧ s ≠ "") →
          ghtoken_from_hub w = .notFound))) ∧
    (∀ e, w.readYaml p = .error e → ghtoken_from_hub w = .notFound) ∧
    ghtoken_from_hub w ≠ .hard := by
  have hbase : ∀ cfg, w.readYaml p = .ok cfg →
      ghtoken_from_hub w = tokenOfLookup (hubTokenLookup cfg) := by
    intro cfg hok
    unfold ghtoken_from_hub
    rw [hp]
    simp only [hok]
    exact match_eq_tokenOfLookup _
  refine ⟨?_, ?_, ?_⟩
  · intro cfg hok
    constructor
    · intro s
      rw [hbase cfg hok]
      exact tokenOfLookup_found _ s
    · intro hno
      rw [hbase cfg hok]
      exact tokenOfLookup_notFound _ hno
  · intro e herr
    unfold ghtoken_from_hub
    rw [hp]
    simp [herr]
  · rcases ghtoken_from_hub_cases w with h | ⟨s, hs, _⟩
    · simp [h]
    · simp [hs]

/-- C7, witness: the canonical document `github.com:\n- oauth_token:
my_token\n` resolved at `~/.config/hub` yields `my_token`. -/
theorem hub_token_extraction_witness :
    ghtoken_from_hub wHubToken = .found "my_token" :=
  (((hub_token_extraction wHubToken "/home/user/.config/hub" (by decide)).1
      yamlMyToken rfl).1 "my_token").mpr ⟨rfl, by decide⟩

/-- C8: `chomp` removes at most one trailing line terminator — a CR
immediately followed by LF, a lone LF, or a lone CR — and satisfies the
specification's example evaluations, including that a trailing CR is not
paired backward with the LF before it. -/
theorem chomp_strips_one_terminator :
    (∀ s : String, chomp s = chompSpec s) ∧
    chomp "" = "" ∧ chomp "\n" = "" ∧ chomp "\r" = "" ∧ chomp "\r\n" = "" ∧
    chomp "\n\n" = "\n" ∧ chomp "foobar\r\n" = "foobar" ∧
    chomp "foobar\n\r" = "foobar\n" := by
  refine ⟨fun s => ?_, by decide, by decide, by decide, by decide, by decide,
    by decide, by decide⟩
  simp [chomp, chompSpec, chompD_eq_chompSpecD]

/-- C9: the probes `get_ghtoken` actually consults are exactly the enabled
probes up to and including the first whose outcome is not not-found; once an
earlier enabled probe succeeds, no later probe is invoked, and the
instrumented run returns the same result as `get_ghtoken`. -/
theorem combinator_short_circuits (w : World) (dv : DotenvArg)
    (e g h ho : Bool) :
    (get_ghtokenT w dv e g h ho).2 =
      consultedSpec w dv (enabledProbes dv e g h ho) ∧
    (get_ghtokenT w dv e g h ho).1 = get_ghtoken w dv e g h ho := by
  refine ⟨?_, (get_ghtoken_eq_fst w dv e g h ho).symm⟩
  rw [get_ghtokenT_eq_runChainT, runChainT_snd]

/-- C10: `ghtoken_from_environ` depends only on the `GH_TOKEN` and
`GITHUB_TOKEN` environment variables — any two environments agreeing on those
two produce the same outcome. -/
theorem environ_noninterference (w1 w2 : World)
    (h1 : w1.environ "GH_TOKEN" = w2.environ "GH_TOKEN")
    (h2 : w1.environ "GITHUB_TOKEN" = w2.environ "GITHUB_TOKEN") :
    ghtoken_from_environ w1 = ghtoken_from_environ w2 := by
  unfold ghtoken_from_environ
  simp only [lookupFirstNonEmpty, ENVVARS, h1, h2]

/-- C10, witness: two environments that differ only in an unrelated variable
give the same outcome. -/
theorem environ_noninterference_witness :
    ghtoken_from_environ wEnvA = ghtoken_from_environ wEnvB :=
  environ_noninterference wEnvA wEnvB (by decide) (by decide)

end GhToken
